import Mathlib

/-!
# Verification of the lumos night-light blob codec

Shallow embedding of the `night` package (file `night.go` style source shown
in the repository README): the state-blob codec around `Enabled`/`Toggle`,
the settings-blob codec around `GetStrength`/`SetStrength`, and the shared
timestamp-advancing loop.  Byte sequences are modelled as `List Nat` (each
entry a byte value), Go's `float64` arithmetic as exact rational arithmetic
(`ℚ`), and fallible operations as `Except String`.  Go slice expressions
`data[a:b]` panic when `b` exceeds the slice length; this is modelled by
`goSlice` returning an error, so that totality claims are statable.
-/

deriving instance DecidableEq for Except

namespace Lumos

/-- Byte offsets and constants from the `night` package. -/
def MIN_KELVIN : ℚ := 1200

/-- Neutral temperature: 0% strength. -/
def MAX_KELVIN : ℚ := 6500

/-- Go `data[a:b]`: the half-open slice, failing (Go: panicking) when the
upper bound exceeds the length.  All call sites use constant `a ≤ b`. -/
def goSlice (data : List Nat) (a b : Nat) : Except String (List Nat) :=
  if b ≤ data.length then .ok ((data.take b).drop a)
  else .error "slice bounds out of range"

/-- Go `copy(dst[start:stop], src)` where the call sites always pass a `src`
whose length equals `stop - start`: writes `src` over `dst` starting at
`start`, truncated to `dst`'s end (Go `copy` copies `min` of the lengths). -/
def copyAt (dst : List Nat) (start : Nat) (src : List Nat) : List Nat :=
  dst.take start ++ src.take (dst.length - start) ++ dst.drop (start + src.length)

/-- The timestamp loop body shared by `Toggle` and `SetStrength`:
`for i := lo; i < hi; i++ { if data[i] != 0xff { data[i]++; break } }`,
rendered as structural recursion over the concrete index list. -/
def advanceAt (data : List Nat) : List Nat → List Nat
  | [] => data
  | i :: rest =>
      if data.getD i 0 ≠ 0xff then data.set i (data.getD i 0 + 1)
      else advanceAt data rest

/-- The concrete loop `for i := 10; i < 15` incrementing the first
non-`0xff` byte of the 5-byte timestamp window at offsets 10–14. -/
def advanceTimestamp (data : List Nat) : List Nat :=
  advanceAt data [10, 11, 12, 13, 14]

/-- `Enabled` (registry read elided): errors when `len(data) < 19`, else
reports `data[18] == 0x15`. -/
def enabled (data : List Nat) : Except String Bool :=
  if data.length < 19 then .error "invalid state data length"
  else .ok (data.getD 18 0 == 0x15)

/-- `Toggle` on the in-memory state blob (registry read/write elided):
branches on `enabled`, splices the blob between the 41-byte disabled shape
and the 43-byte enabled shape, then advances the timestamp window. -/
def toggle (data : List Nat) : Except String (List Nat) := do
  let en ← enabled data
  let newData ←
    if en then do
      -- Disable: create a smaller array and copy data with gaps
      let pre ← goSlice data 0 22
      let tail ← goSlice data 25 43
      let nd := List.replicate 41 0
      let nd := copyAt nd 0 pre
      let nd := copyAt nd 23 tail
      pure (nd.set 18 0x13)
    else do
      -- Enable: create a larger array and copy data with gaps
      let pre ← goSlice data 0 22
      let tail ← goSlice data 23 41
      let nd := List.replicate 43 0
      let nd := copyAt nd 0 pre
      let nd := copyAt nd 25 tail
      pure (((nd.set 18 0x15).set 23 0x10).set 24 0x00)
  pure (advanceTimestamp newData)

/-- `bytesToKelvin(loTemp, hiTemp)`: `float64(hiTemp)*64 + (float64(loTemp)-128)/2`. -/
def bytesToKelvin (loTemp hiTemp : Nat) : ℚ :=
  (hiTemp : ℚ) * 64 + ((loTemp : ℚ) - 128) / 2

/-- `kelvinToPercentage(kelvin)`: `100 - ((kelvin-MIN_KELVIN)/(MAX_KELVIN-MIN_KELVIN))*100`. -/
def kelvinToPercentage (kelvin : ℚ) : ℚ :=
  100 - ((kelvin - MIN_KELVIN) / (MAX_KELVIN - MIN_KELVIN)) * 100

/-- `percentageToKelvin(percentage)`: `MAX_KELVIN - (percentage/100)*(MAX_KELVIN-MIN_KELVIN)`. -/
def percentageToKelvin (percentage : ℚ) : ℚ :=
  MAX_KELVIN - (percentage / 100) * (MAX_KELVIN - MIN_KELVIN)

/-- `GetStrength` on the in-memory settings blob: length check
`len(data) < 0x25`, then decode the temperature bytes at `0x23`/`0x24`. -/
def getStrength (data : List Nat) : Except String ℚ :=
  if data.length < 0x25 then .error "invalid settings data length"
  else .ok (kelvinToPercentage (bytesToKelvin (data.getD 0x23 0) (data.getD 0x24 0)))

/-- `SetStrength` on the in-memory settings blob: clamp the percentage to
[0,100], convert to kelvin, check the length, write the two fixed-point
temperature bytes (Go's `byte(...)` float conversion truncates toward zero;
the operands here are nonnegative, so `Int.toNat ∘ Rat.floor` is that
truncation), and advance the timestamp window. -/
def setStrength (percentage : ℚ) (data : List Nat) : Except String (List Nat) :=
  let percentage := if percentage < 0 then 0 else if percentage > 100 then 100 else percentage
  let kelvin := percentageToKelvin percentage
  if data.length < 0x25 then .error "invalid settings data length"
  else
    let tempHi : Nat := (kelvin / 64).floor.toNat
    let tempLo : Nat := (((kelvin - (tempHi : ℚ) * 64) * 2) + 128).floor.toNat
    let d := (data.set 0x23 tempLo).set 0x24 tempHi
    .ok (advanceTimestamp d)

/-- The 5-byte timestamp window at offsets 10–14 read as the little-endian
number the advancing loop maintains (scanning left to right and carrying
into the next byte only when the earlier ones are saturated). -/
def tsVal (data : List Nat) : Nat :=
  data.getD 10 0 + 256 * (data.getD 11 0 + 256 * (data.getD 12 0 +
    256 * (data.getD 13 0 + 256 * data.getD 14 0)))

end Lumos
namespace Lumos

lemma getD_set_self (l : List Nat) {i : Nat} (a : Nat) (h : i < l.length) :
    (l.set i a).getD i 0 = a := by
  simp [List.getD_eq_getElem?_getD, List.getElem?_set_self h]

lemma getD_set_ne (l : List Nat) {i j : Nat} (a : Nat) (h : i ≠ j) :
    (l.set i a).getD j 0 = l.getD j 0 := by
  simp [List.getD_eq_getElem?_getD, List.getElem?_set_ne h]

lemma advanceAt_length (d : List Nat) (is : List Nat) :
    (advanceAt d is).length = d.length := by
  induction is with
  | nil => rfl
  | cons i rest ih =>
      rw [advanceAt]
      by_cases h : d.getD i 0 = 0xff
      · rw [if_neg (not_not_intro h)]; exact ih
      · rw [if_pos h]; exact List.length_set d i _

lemma advanceAt_getD_not_mem (d : List Nat) (is : List Nat) (j : Nat) (h : j ∉ is) :
    (advanceAt d is).getD j 0 = d.getD j 0 := by
  induction is with
  | nil => rfl
  | cons i rest ih =>
      have hij : i ≠ j := fun hh => h (hh ▸ List.mem_cons_self i rest)
      rw [advanceAt]
      by_cases hb : d.getD i 0 = 0xff
      · rw [if_neg (not_not_intro hb)]
        exact ih (fun hm => h (List.mem_cons_of_mem i hm))
      · rw [if_pos hb]
        exact getD_set_ne d _ hij

lemma advanceTimestamp_length (d : List Nat) :
    (advanceTimestamp d).length = d.length := advanceAt_length d _

lemma advanceTimestamp_getD_outside (d : List Nat) (j : Nat)
    (h : j < 10 ∨ 14 < j) :
    (advanceTimestamp d).getD j 0 = d.getD j 0 := by
  apply advanceAt_getD_not_mem
  intro hm
  rcases h with h | h <;> · fin_cases hm <;> omega

theorem advanceTimestamp_cases (d : List Nat) :
    ((∀ i, 10 ≤ i → i ≤ 14 → d.getD i 0 = 0xff) ∧ advanceTimestamp d = d) ∨
    (∃ j, 10 ≤ j ∧ j ≤ 14 ∧ d.getD j 0 ≠ 0xff ∧
      (∀ i, 10 ≤ i → i < j → d.getD i 0 = 0xff) ∧
      advanceTimestamp d = d.set j (d.getD j 0 + 1)) := by
  by_cases h10 : d.getD 10 0 = 0xff
  case neg =>
    refine .inr ⟨10, le_refl _, by omega, h10,
      fun i h1 h2 => absurd (lt_of_le_of_lt h1 h2) (lt_irrefl 10), ?_⟩
    rw [advanceTimestamp, advanceAt, if_pos h10]
  case pos =>
  by_cases h11 : d.getD 11 0 = 0xff
  case neg =>
    refine .inr ⟨11, by omega, by omega, h11, ?_, ?_⟩
    · intro i h1 h2
      interval_cases i
      exact h10
    · rw [advanceTimestamp, advanceAt, if_neg (not_not_intro h10), advanceAt, if_pos h11]
  case pos =>
  by_cases h12 : d.getD 12 0 = 0xff
  case neg =>
    refine .inr ⟨12, by omega, by omega, h12, ?_, ?_⟩
    · intro i h1 h2
      interval_cases i <;> assumption
    · rw [advanceTimestamp, advanceAt, if_neg (not_not_intro h10), advanceAt,
        if_neg (not_not_intro h11), advanceAt, if_pos h12]
  case pos =>
  by_cases h13 : d.getD 13 0 = 0xff
  case neg =>
    refine .inr ⟨13, by omega, by omega, h13, ?_, ?_⟩
    · intro i h1 h2
      interval_cases i <;> assumption
    · rw [advanceTimestamp, advanceAt, if_neg (not_not_intro h10), advanceAt,
        if_neg (not_not_intro h11), advanceAt, if_neg (not_not_intro h12), advanceAt, if_pos h13]
  case pos =>
  by_cases h14 : d.getD 14 0 = 0xff
  case neg =>
    refine .inr ⟨14, by omega, by omega, h14, ?_, ?_⟩
    · intro i h1 h2
      interval_cases i <;> assumption
    · rw [advanceTimestamp, advanceAt, if_neg (not_not_intro h10), advanceAt,
        if_neg (not_not_intro h11), advanceAt, if_neg (not_not_intro h12), advanceAt,
        if_neg (not_not_intro h13), advanceAt, if_pos h14]
  case pos =>
    refine .inl ⟨?_, ?_⟩
    · intro i h1 h2
      interval_cases i <;> assumption
    · rw [advanceTimestamp, advanceAt, if_neg (not_not_intro h10), advanceAt,
        if_neg (not_not_intro h11), advanceAt, if_neg (not_not_intro h12), advanceAt,
        if_neg (not_not_intro h13), advanceAt, if_neg (not_not_intro h14), advanceAt]

end Lumos
namespace Lumos

lemma except_ok_bind {α β : Type} (a : α) (f : α → Except String β) :
    (Except.ok (ε := String) a >>= f) = f a := rfl

lemma enabled_eq_ok (b : List Nat) (h : 19 ≤ b.length) :
    enabled b = .ok (b.getD 18 0 == 0x15) := by
  rw [enabled, if_neg (by omega)]

lemma goSlice_eq_ok (b : List Nat) (a c : Nat) (h : c ≤ b.length) :
    goSlice b a c = .ok ((b.take c).drop a) := by
  rw [goSlice, if_pos h]

lemma disable_splice_eq (b : List Nat) (hlen : 43 ≤ b.length) :
    (copyAt (copyAt (List.replicate 41 0) 0 (b.take 22)) 23 ((b.drop 25).take 18)).set 18 0x13
      = ((b.take 22).set 18 0x13) ++ ([0] ++ ((b.drop 25).take 18)) := by
  have hpre : (b.take 22).length = 22 := by rw [List.length_take]; omega
  have htail : ((b.drop 25).take 18).length = 18 := by
    rw [List.length_take, List.length_drop]; omega
  have step1 : copyAt (List.replicate 41 0) 0 (b.take 22)
      = b.take 22 ++ List.replicate 19 0 := by
    rw [copyAt, hpre, List.take_zero, List.take_take, List.length_replicate]
    have e1 : min (41 - 0) 22 = 22 := by omega
    have e2 : (0:Nat) + 22 = 22 := by omega
    rw [e1, e2, List.drop_replicate, List.nil_append]
  rw [step1]
  have hlen1 : (b.take 22 ++ List.replicate 19 0).length = 41 := by
    rw [List.length_append, hpre, List.length_replicate]
  have step2 : copyAt (b.take 22 ++ List.replicate 19 0) 23 ((b.drop 25).take 18)
      = (b.take 22 ++ [0]) ++ ((b.drop 25).take 18) := by
    rw [copyAt, hlen1, htail]
    have e1 : (41:Nat) - 23 = 18 := by omega
    have e2 : (23:Nat) + 18 = 41 := by omega
    rw [e1, e2, List.take_append_eq_append_take, hpre,
      List.take_of_length_le (le_of_eq htail),
      List.drop_eq_nil_of_le (le_of_eq hlen1), List.append_nil,
      List.take_of_length_le (by rw [hpre]; omega : (b.take 22).length ≤ 23),
      List.take_replicate]
    have e3 : (23:Nat) - 22 = 1 := by omega
    rw [e3]
    have e4 : min 1 19 = 1 := by omega
    rw [e4, List.replicate_one]
  rw [step2]
  rw [List.set_append, if_pos (by rw [List.length_append, hpre]; norm_num),
    List.set_append, if_pos (by rw [hpre]; norm_num), List.append_assoc]

theorem toggle_disable_nf (b : List Nat) (hflag : b.getD 18 0 = 0x15) (hlen : 43 ≤ b.length) :
    toggle b = .ok (advanceTimestamp
      (((b.take 22).set 18 0x13) ++ ([0] ++ ((b.drop 25).take 18)))) := by
  have e : enabled b = .ok true := by
    rw [enabled_eq_ok b (by omega), hflag]
    rfl
  have s1 : goSlice b 0 22 = .ok (b.take 22) := by
    rw [goSlice_eq_ok b 0 22 (by omega), List.drop_zero]
  have s2 : goSlice b 25 43 = .ok ((b.drop 25).take 18) := by
    rw [goSlice_eq_ok b 25 43 (by omega), List.drop_take]
  rw [toggle, e, except_ok_bind]
  simp only [if_true]
  rw [s1, except_ok_bind, s2, except_ok_bind]
  rw [disable_splice_eq b hlen]
  rfl

end Lumos
namespace Lumos

lemma getD_take (b : List Nat) {k i : Nat} (h : i < k) :
    (b.take k).getD i 0 = b.getD i 0 := by
  simp [List.getD_eq_getElem?_getD, List.getElem?_take, h]

lemma getD_drop_take (b : List Nat) (s : Nat) {m i : Nat} (h : i < m) :
    ((b.drop s).take m).getD i 0 = b.getD (s + i) 0 := by
  simp [List.getD_eq_getElem?_getD, List.getElem?_take, List.getElem?_drop, h]

lemma enable_copy_eq (b : List Nat) (hlen : 41 ≤ b.length) :
    copyAt (copyAt (List.replicate 43 0) 0 (b.take 22)) 25 ((b.drop 23).take 18)
      = (b.take 22 ++ List.replicate 3 0) ++ ((b.drop 23).take 18) := by
  have hpre : (b.take 22).length = 22 := by rw [List.length_take]; omega
  have htail : ((b.drop 23).take 18).length = 18 := by
    rw [List.length_take, List.length_drop]; omega
  have step1 : copyAt (List.replicate 43 0) 0 (b.take 22)
      = b.take 22 ++ List.replicate 21 0 := by
    rw [copyAt, hpre, List.take_zero, List.take_take, List.length_replicate]
    have e1 : min (43 - 0) 22 = 22 := by omega
    have e2 : (0:Nat) + 22 = 22 := by omega
    rw [e1, e2, List.drop_replicate, List.nil_append]
  rw [step1]
  have hlen1 : (b.take 22 ++ List.replicate 21 0).length = 43 := by
    rw [List.length_append, hpre, List.length_replicate]
  rw [copyAt, hlen1, htail]
  have e1 : (43:Nat) - 25 = 18 := by omega
  have e2 : (25:Nat) + 18 = 43 := by omega
  rw [e1, e2, List.take_append_eq_append_take, hpre,
    List.take_of_length_le (le_of_eq htail),
    List.drop_eq_nil_of_le (le_of_eq hlen1), List.append_nil,
    List.take_of_length_le (by rw [hpre]; omega : (b.take 22).length ≤ 25),
    List.take_replicate]
  have e3 : (25:Nat) - 22 = 3 := by omega
  rw [e3]
  have e4 : min 3 21 = 3 := by omega
  rw [e4]

theorem toggle_enable_nf (b : List Nat) (hflag : b.getD 18 0 ≠ 0x15) (hlen : 41 ≤ b.length) :
    toggle b = .ok (advanceTimestamp
      (((((b.take 22 ++ List.replicate 3 0) ++ ((b.drop 23).take 18)).set 18 0x15).set
          23 0x10).set 24 0x00)) := by
  have e : enabled b = .ok false := by
    rw [enabled_eq_ok b (by omega)]
    have : (b.getD 18 0 == 0x15) = false := beq_eq_false_iff_ne.mpr hflag
    rw [this]
  have s1 : goSlice b 0 22 = .ok (b.take 22) := by
    rw [goSlice_eq_ok b 0 22 (by omega), List.drop_zero]
  have s2 : goSlice b 23 41 = .ok ((b.drop 23).take 18) := by
    rw [goSlice_eq_ok b 23 41 (by omega), List.drop_take]
  rw [toggle, e, except_ok_bind, if_neg Bool.false_ne_true]
  rw [s1, except_ok_bind, s2, except_ok_bind]
  dsimp only
  rw [enable_copy_eq b hlen]
  rfl

end Lumos
namespace Lumos

theorem toggle_disabled_spec (b : List Nat) (hflag : b.getD 18 0 = 0x15)
    (hlen : 43 ≤ b.length) :
    ∃ nd, toggle b = .ok (advanceTimestamp nd) ∧ nd.length = 41 ∧
      (∀ i, i < 22 → i ≠ 18 → nd.getD i 0 = b.getD i 0) ∧
      nd.getD 18 0 = 0x13 ∧ nd.getD 22 0 = 0 ∧
      (∀ i, 23 ≤ i → i ≤ 40 → nd.getD i 0 = b.getD (i + 2) 0) := by
  have hpre : ((b.take 22).set 18 0x13).length = 22 := by
    rw [List.length_set, List.length_take]; omega
  have htail : ((b.drop 25).take 18).length = 18 := by
    rw [List.length_take, List.length_drop]; omega
  refine ⟨_, toggle_disable_nf b hflag hlen, ?_, ?_, ?_, ?_, ?_⟩
  · rw [List.length_append, List.length_append, hpre, htail]
    simp
  · intro i hi hne
    rw [List.getD_append _ _ _ _ (by omega : i < ((b.take 22).set 18 0x13).length),
      getD_set_ne _ _ (fun h => hne h.symm), getD_take b hi]
  · rw [List.getD_append _ _ _ _ (by omega : 18 < ((b.take 22).set 18 0x13).length),
      getD_set_self _ _ (by rw [List.length_take]; omega)]
  · rw [List.getD_append_right _ _ _ _ (by omega : ((b.take 22).set 18 0x13).length ≤ 22),
      hpre]
    rfl
  · intro i h23 h40
    rw [List.getD_append_right _ _ _ _ (by omega : ((b.take 22).set 18 0x13).length ≤ i),
      hpre, List.getD_append_right _ _ _ _ (by simp; omega : ([0]:List Nat).length ≤ i - 22)]
    have e1 : i - 22 - ([0]:List Nat).length = i - 23 := by simp; omega
    rw [e1, getD_drop_take b 25 (by omega : i - 23 < 18)]
    have e2 : 25 + (i - 23) = i + 2 := by omega
    rw [e2]

theorem toggle_enabled_spec (b : List Nat) (hflag : b.getD 18 0 ≠ 0x15)
    (hlen : 41 ≤ b.length) :
    ∃ nd, toggle b = .ok (advanceTimestamp nd) ∧ nd.length = 43 ∧
      (∀ i, i < 22 → i ≠ 18 → nd.getD i 0 = b.getD i 0) ∧
      nd.getD 18 0 = 0x15 ∧ nd.getD 22 0 = 0 ∧ nd.getD 23 0 = 0x10 ∧ nd.getD 24 0 = 0 ∧
      (∀ i, 25 ≤ i → i ≤ 42 → nd.getD i 0 = b.getD (i - 2) 0) := by
  have hpre : (b.take 22).length = 22 := by rw [List.length_take]; omega
  have htail : ((b.drop 23).take 18).length = 18 := by
    rw [List.length_take, List.length_drop]; omega
  have hXR : (b.take 22 ++ List.replicate 3 0).length = 25 := by
    rw [List.length_append, hpre, List.length_replicate]
  have hbase : ((b.take 22 ++ List.replicate 3 0) ++ ((b.drop 23).take 18)).length = 43 := by
    rw [List.length_append, hXR, htail]
  refine ⟨_, toggle_enable_nf b hflag hlen, ?_, ?_, ?_, ?_, ?_, ?_, ?_⟩
  · rw [List.length_set, List.length_set, List.length_set, hbase]
  · intro i hi hne
    rw [getD_set_ne _ _ (by omega : 24 ≠ i), getD_set_ne _ _ (by omega : 23 ≠ i),
      getD_set_ne _ _ (fun h => hne h.symm),
      List.getD_append _ _ _ _ (by omega : i < (b.take 22 ++ List.replicate 3 0).length),
      List.getD_append _ _ _ _ (by omega : i < (b.take 22).length), getD_take b hi]
  · rw [getD_set_ne _ _ (by omega : 24 ≠ 18), getD_set_ne _ _ (by omega : 23 ≠ 18),
      getD_set_self _ _ (by omega : 18 < ((b.take 22 ++ List.replicate 3 0) ++
        ((b.drop 23).take 18)).length)]
  · rw [getD_set_ne _ _ (by omega : 24 ≠ 22), getD_set_ne _ _ (by omega : 23 ≠ 22),
      getD_set_ne _ _ (by omega : 18 ≠ 22),
      List.getD_append _ _ _ _ (by omega : 22 < (b.take 22 ++ List.replicate 3 0).length),
      List.getD_append_right _ _ _ _ (by omega : (b.take 22).length ≤ 22), hpre]
    rfl
  · rw [getD_set_ne _ _ (by omega : 24 ≠ 23),
      getD_set_self _ _ (by rw [List.length_set, hbase]; omega)]
  · rw [getD_set_self _ _ (by rw [List.length_set, List.length_set, hbase]; omega)]
  · intro i h25 h42
    rw [getD_set_ne _ _ (by omega : 24 ≠ i), getD_set_ne _ _ (by omega : 23 ≠ i),
      getD_set_ne _ _ (by omega : 18 ≠ i),
      List.getD_append_right _ _ _ _ (by omega : (b.take 22 ++ List.replicate 3 0).length ≤ i),
      hXR, getD_drop_take b 23 (by omega : i - 25 < 18)]
    have e2 : 23 + (i - 25) = i - 2 := by omega
    rw [e2]

end Lumos
namespace Lumos

lemma tsVal_lt_set (d : List Nat) (j : Nat) (hd : 15 ≤ d.length)
    (h10 : 10 ≤ j) (h14 : j ≤ 14) :
    tsVal d < tsVal (d.set j (d.getD j 0 + 1)) := by
  interval_cases j
  · simp only [tsVal]
    rw [getD_set_self _ _ (by omega : 10 < d.length),
      getD_set_ne _ _ (by omega : (10:Nat) ≠ 11), getD_set_ne _ _ (by omega : (10:Nat) ≠ 12),
      getD_set_ne _ _ (by omega : (10:Nat) ≠ 13), getD_set_ne _ _ (by omega : (10:Nat) ≠ 14)]
    omega
  · simp only [tsVal]
    rw [getD_set_ne _ _ (by omega : (11:Nat) ≠ 10),
      getD_set_self _ _ (by omega : 11 < d.length),
      getD_set_ne _ _ (by omega : (11:Nat) ≠ 12),
      getD_set_ne _ _ (by omega : (11:Nat) ≠ 13), getD_set_ne _ _ (by omega : (11:Nat) ≠ 14)]
    omega
  · simp only [tsVal]
    rw [getD_set_ne _ _ (by omega : (12:Nat) ≠ 10), getD_set_ne _ _ (by omega : (12:Nat) ≠ 11),
      getD_set_self _ _ (by omega : 12 < d.length),
      getD_set_ne _ _ (by omega : (12:Nat) ≠ 13), getD_set_ne _ _ (by omega : (12:Nat) ≠ 14)]
    omega
  · simp only [tsVal]
    rw [getD_set_ne _ _ (by omega : (13:Nat) ≠ 10), getD_set_ne _ _ (by omega : (13:Nat) ≠ 11),
      getD_set_ne _ _ (by omega : (13:Nat) ≠ 12),
      getD_set_self _ _ (by omega : 13 < d.length),
      getD_set_ne _ _ (by omega : (13:Nat) ≠ 14)]
    omega
  · simp only [tsVal]
    rw [getD_set_ne _ _ (by omega : (14:Nat) ≠ 10), getD_set_ne _ _ (by omega : (14:Nat) ≠ 11),
      getD_set_ne _ _ (by omega : (14:Nat) ≠ 12), getD_set_ne _ _ (by omega : (14:Nat) ≠ 13),
      getD_set_self _ _ (by omega : 14 < d.length)]
    omega

lemma tsVal_advance_gt (d : List Nat) (hd : 15 ≤ d.length)
    (h : ¬ ∀ i, 10 ≤ i → i ≤ 14 → d.getD i 0 = 0xff) :
    tsVal d < tsVal (advanceTimestamp d) := by
  rcases advanceTimestamp_cases d with ⟨hall, _⟩ | ⟨j, hj1, hj2, _, _, heq⟩
  · exact absurd hall h
  · rw [heq]
    exact tsVal_lt_set d j hd hj1 hj2

lemma tsVal_advance_ge (d : List Nat) (hd : 15 ≤ d.length) :
    tsVal d ≤ tsVal (advanceTimestamp d) := by
  rcases advanceTimestamp_cases d with ⟨_, heq⟩ | ⟨j, hj1, hj2, _, _, heq⟩
  · rw [heq]
  · rw [heq]
    exact le_of_lt (tsVal_lt_set d j hd hj1 hj2)

end Lumos
namespace Lumos

/-- Transfers the timestamp-advancer case analysis on the freshly built blob
`nd` to the window bytes of the original blob `b`, given that the window was
copied unchanged. -/
lemma advance_window_transfer (b nd : List Nat) (hndlen : 15 ≤ nd.length)
    (hwin : ∀ i, 10 ≤ i → i ≤ 14 → nd.getD i 0 = b.getD i 0) :
    ((∀ i, 10 ≤ i → i ≤ 14 → b.getD i 0 = 0xff) →
      ∀ i, 10 ≤ i → i ≤ 14 → (advanceTimestamp nd).getD i 0 = b.getD i 0) ∧
    (∀ j, 10 ≤ j → j ≤ 14 → b.getD j 0 ≠ 0xff →
      (∀ i, 10 ≤ i → i < j → b.getD i 0 = 0xff) →
      (advanceTimestamp nd).getD j 0 = b.getD j 0 + 1 ∧
      (∀ i, 10 ≤ i → i ≤ 14 → i ≠ j → (advanceTimestamp nd).getD i 0 = b.getD i 0)) := by
  constructor
  · intro hsat i h1 h2
    rcases advanceTimestamp_cases nd with ⟨_, heq⟩ | ⟨j, hj1, hj2, hjne, _, _⟩
    · rw [heq]
      exact hwin i h1 h2
    · exact absurd ((hwin j hj1 hj2).trans (hsat j hj1 hj2)) hjne
  · intro j hj1 hj2 hbne hbff
    rcases advanceTimestamp_cases nd with ⟨hall, _⟩ | ⟨j', hj'1, hj'2, hne', hff', heq'⟩
    · exact absurd ((hwin j hj1 hj2).symm.trans (hall j hj1 hj2)) hbne
    · have hjj : j' = j := by
        rcases lt_trichotomy j' j with hlt | he | hgt
        · exact absurd ((hwin j' hj'1 hj'2).trans (hbff j' hj'1 hlt)) hne'
        · exact he
        · exact absurd ((hwin j hj1 hj2).symm.trans (hff' j hj1 hgt)) hbne
      subst hjj
      constructor
      · rw [heq', getD_set_self _ _ (by omega : j' < nd.length), hwin j' hj'1 hj'2]
      · intro i h1 h2 hij
        rw [heq', getD_set_ne _ _ (fun h => hij h.symm), hwin i h1 h2]

/-- C1 (counterexample): the claim asserts that for a valid disabled blob the
toggled result keeps bytes 0–21 unchanged; at the all-zero disabled blob the
flag byte 18 inside that range changes from 0x13 to 0x15 (and a timestamp
byte is incremented), so the 22-byte prefix of the result differs from the
input's. -/
theorem C1_prefix_not_preserved_counterexample :
    ((List.replicate 41 0).set 18 0x13).length = 41 ∧
    ((List.replicate 41 0).set 18 0x13).getD 18 0 = 0x13 ∧
    (toggle ((List.replicate 41 0).set 18 0x13)).toOption.map List.length = some 43 ∧
    (toggle ((List.replicate 41 0).set 18 0x13)).toOption.map (List.take 22)
      ≠ some (((List.replicate 41 0).set 18 0x13).take 22) := by decide

/-- C1 (amended): for every valid disabled StateBlob `b` (length 41, byte 18
= 0x13), `toggle b` succeeds with a blob of length 43 whose byte 18 is 0x15
and whose bytes 0–21 equal bytes 0–21 of `b` except at offset 18 and at most
one offset in the timestamp window 10–14 (the leftmost non-0xff window byte,
incremented by one; the window is unchanged when all five bytes are 0xff). -/
theorem C1_toggle_disabled_amended (b : List Nat)
    (hlen : b.length = 41) (hflag : b.getD 18 0 = 0x13) :
    ∃ r, toggle b = .ok r ∧ r.length = 43 ∧ r.getD 18 0 = 0x15 ∧
      (∀ i, i < 22 → i ≠ 18 → ¬(10 ≤ i ∧ i ≤ 14) → r.getD i 0 = b.getD i 0) ∧
      ((∀ i, 10 ≤ i → i ≤ 14 → b.getD i 0 = 0xff) →
        ∀ i, 10 ≤ i → i ≤ 14 → r.getD i 0 = b.getD i 0) ∧
      (∀ j, 10 ≤ j → j ≤ 14 → b.getD j 0 ≠ 0xff →
        (∀ i, 10 ≤ i → i < j → b.getD i 0 = 0xff) →
        r.getD j 0 = b.getD j 0 + 1 ∧
        (∀ i, 10 ≤ i → i ≤ 14 → i ≠ j → r.getD i 0 = b.getD i 0)) := by
  obtain ⟨nd, ht, hndlen, hpre, h18, h22, h23, h24, htail⟩ :=
    toggle_enabled_spec b (by rw [hflag]; decide) (by omega)
  have hwin : ∀ i, 10 ≤ i → i ≤ 14 → nd.getD i 0 = b.getD i 0 := fun i h1 h2 =>
    hpre i (by omega) (by omega)
  obtain ⟨wsat, whit⟩ := advance_window_transfer b nd (by omega) hwin
  refine ⟨advanceTimestamp nd, ht, ?_, ?_, ?_, wsat, whit⟩
  · rw [advanceTimestamp_length, hndlen]
  · rw [advanceTimestamp_getD_outside nd 18 (by omega), h18]
  · intro i hi hne18 hwout
    rw [advanceTimestamp_getD_outside nd i (by omega), hpre i hi hne18]

/-- C1 (witness): the amended theorem applied to the all-zero disabled
blob. -/
theorem C1_toggle_disabled_amended_witness :
    ∃ r, toggle ((List.replicate 41 0).set 18 0x13) = .ok r ∧ r.length = 43 ∧
      r.getD 18 0 = 0x15 ∧
      (∀ i, i < 22 → i ≠ 18 → ¬(10 ≤ i ∧ i ≤ 14) →
        r.getD i 0 = ((List.replicate 41 0).set 18 0x13).getD i 0) ∧
      ((∀ i, 10 ≤ i → i ≤ 14 → ((List.replicate 41 0).set 18 0x13).getD i 0 = 0xff) →
        ∀ i, 10 ≤ i → i ≤ 14 →
          r.getD i 0 = ((List.replicate 41 0).set 18 0x13).getD i 0) ∧
      (∀ j, 10 ≤ j → j ≤ 14 → ((List.replicate 41 0).set 18 0x13).getD j 0 ≠ 0xff →
        (∀ i, 10 ≤ i → i < j → ((List.replicate 41 0).set 18 0x13).getD i 0 = 0xff) →
        r.getD j 0 = ((List.replicate 41 0).set 18 0x13).getD j 0 + 1 ∧
        (∀ i, 10 ≤ i → i ≤ 14 → i ≠ j →
          r.getD i 0 = ((List.replicate 41 0).set 18 0x13).getD i 0)) :=
  C1_toggle_disabled_amended ((List.replicate 41 0).set 18 0x13) (by decide) (by decide)

end Lumos
namespace Lumos

/-- C2 (counterexample): the claim asserts that 40- and 42-byte state blobs,
and 41-byte blobs with flag 0x15, are rejected with an invalid-data error;
in the code `Enabled` only requires length ≥ 19 and accepts all three,
returning an enabled/disabled answer. -/
theorem C2_decode_rejects_counterexample :
    (List.replicate 40 0).length = 40 ∧
    enabled (List.replicate 40 0) = .ok false ∧
    (List.replicate 42 0).length = 42 ∧
    enabled (List.replicate 42 0) = .ok false ∧
    ((List.replicate 41 0).set 18 0x15).length = 41 ∧
    ((List.replicate 41 0).set 18 0x15).getD 18 0 = 0x15 ∧
    enabled ((List.replicate 41 0).set 18 0x15) = .ok true := by decide

/-- C2 (amended): the state-reading operation fails (with the
invalid-length error) only for inputs shorter than 19 bytes; a 40- or
42-byte sequence succeeds, returning whether byte 18 equals 0x15, and a
41-byte sequence with byte 18 = 0x15 succeeds returning `true` — no
length-41/43 or flag/length-agreement validation is performed. -/
theorem C2_enabled_lax_amended (data : List Nat) :
    ((data.length = 40 ∨ data.length = 42) →
      enabled data = .ok (data.getD 18 0 == 0x15)) ∧
    (data.length = 41 → data.getD 18 0 = 0x15 → enabled data = .ok true) ∧
    (data.length < 19 → enabled data = .error "invalid state data length") := by
  refine ⟨?_, ?_, ?_⟩
  · intro h
    rcases h with h | h <;> exact enabled_eq_ok data (by omega)
  · intro h1 h2
    rw [enabled_eq_ok data (by omega), h2]
    rfl
  · intro h
    rw [enabled, if_pos h]

/-- C2 (witness): the amended theorem applied at a 40-byte all-zero blob. -/
theorem C2_enabled_lax_amended_witness :
    enabled (List.replicate 40 0) = .ok ((List.replicate 40 0).getD 18 0 == 0x15) :=
  (C2_enabled_lax_amended (List.replicate 40 0)).1 (Or.inl (by decide))

/-- C3 (counterexample): the claim asserts byte 22 is preserved by the
disable transition; the code copies only bytes 0–21 into the new 41-byte
array, so byte 22 of the result is the zero left by `make`, not the input's
byte 22 (here 7). -/
theorem C3_byte22_not_preserved_counterexample :
    (((List.replicate 43 0).set 18 0x15).set 22 7).length = 43 ∧
    (((List.replicate 43 0).set 18 0x15).set 22 7).getD 18 0 = 0x15 ∧
    (((List.replicate 43 0).set 18 0x15).set 22 7).getD 22 0 = 7 ∧
    (toggle (((List.replicate 43 0).set 18 0x15).set 22 7)).toOption.map
      (fun r => r.getD 22 0) = some 0 := by decide

/-- C3 (amended): for every valid enabled StateBlob `b` (length 43, byte 18
= 0x15), `toggle b` succeeds with a blob of length 41 whose bytes 23–40
equal `b`'s bytes 25–42, whose byte 18 is 0x13, whose byte 22 is 0x00 (the
code zero-fills it instead of copying `b`'s byte 22), and whose remaining
bytes 0–21 equal `b`'s except for at most one timestamp byte in offsets
10–14 (leftmost non-0xff byte incremented by one; window unchanged when
saturated). -/
theorem C3_toggle_enabled_amended (b : List Nat)
    (hlen : b.length = 43) (hflag : b.getD 18 0 = 0x15) :
    ∃ r, toggle b = .ok r ∧ r.length = 41 ∧ r.getD 18 0 = 0x13 ∧ r.getD 22 0 = 0 ∧
      (∀ i, 23 ≤ i → i ≤ 40 → r.getD i 0 = b.getD (i + 2) 0) ∧
      (∀ i, i < 22 → i ≠ 18 → ¬(10 ≤ i ∧ i ≤ 14) → r.getD i 0 = b.getD i 0) ∧
      ((∀ i, 10 ≤ i → i ≤ 14 → b.getD i 0 = 0xff) →
        ∀ i, 10 ≤ i → i ≤ 14 → r.getD i 0 = b.getD i 0) ∧
      (∀ j, 10 ≤ j → j ≤ 14 → b.getD j 0 ≠ 0xff →
        (∀ i, 10 ≤ i → i < j → b.getD i 0 = 0xff) →
        r.getD j 0 = b.getD j 0 + 1 ∧
        (∀ i, 10 ≤ i → i ≤ 14 → i ≠ j → r.getD i 0 = b.getD i 0)) := by
  obtain ⟨nd, ht, hndlen, hpre, h18, h22, htail⟩ :=
    toggle_disabled_spec b hflag (by omega)
  have hwin : ∀ i, 10 ≤ i → i ≤ 14 → nd.getD i 0 = b.getD i 0 := fun i h1 h2 =>
    hpre i (by omega) (by omega)
  obtain ⟨wsat, whit⟩ := advance_window_transfer b nd (by omega) hwin
  refine ⟨advanceTimestamp nd, ht, ?_, ?_, ?_, ?_, ?_, wsat, whit⟩
  · rw [advanceTimestamp_length, hndlen]
  · rw [advanceTimestamp_getD_outside nd 18 (by omega), h18]
  · rw [advanceTimestamp_getD_outside nd 22 (by omega), h22]
  · intro i h1 h2
    rw [advanceTimestamp_getD_outside nd i (by omega), htail i h1 h2]
  · intro i hi hne18 hwout
    rw [advanceTimestamp_getD_outside nd i (by omega), hpre i hi hne18]

/-- C3 (witness): the amended theorem applied to an enabled blob with
byte 22 set to 7 and a marked tail byte. -/
theorem C3_toggle_enabled_amended_witness :
    ∃ r, toggle (((List.replicate 43 0).set 18 0x15).set 22 7) = .ok r ∧
      r.length = 41 ∧ r.getD 18 0 = 0x13 ∧ r.getD 22 0 = 0 ∧
      (∀ i, 23 ≤ i → i ≤ 40 →
        r.getD i 0 = (((List.replicate 43 0).set 18 0x15).set 22 7).getD (i + 2) 0) ∧
      (∀ i, i < 22 → i ≠ 18 → ¬(10 ≤ i ∧ i ≤ 14) →
        r.getD i 0 = (((List.replicate 43 0).set 18 0x15).set 22 7).getD i 0) ∧
      ((∀ i, 10 ≤ i → i ≤ 14 →
          (((List.replicate 43 0).set 18 0x15).set 22 7).getD i 0 = 0xff) →
        ∀ i, 10 ≤ i → i ≤ 14 →
          r.getD i 0 = (((List.replicate 43 0).set 18 0x15).set 22 7).getD i 0) ∧
      (∀ j, 10 ≤ j → j ≤ 14 →
        (((List.replicate 43 0).set 18 0x15).set 22 7).getD j 0 ≠ 0xff →
        (∀ i, 10 ≤ i → i < j →
          (((List.replicate 43 0).set 18 0x15).set 22 7).getD i 0 = 0xff) →
        r.getD j 0 = (((List.replicate 43 0).set 18 0x15).set 22 7).getD j 0 + 1 ∧
        (∀ i, 10 ≤ i → i ≤ 14 → i ≠ j →
          r.getD i 0 = (((List.replicate 43 0).set 18 0x15).set 22 7).getD i 0)) :=
  C3_toggle_enabled_amended (((List.replicate 43 0).set 18 0x15).set 22 7)
    (by decide) (by decide)

/-- C4: the timestamp update shared by `Toggle` and `SetStrength` touches
only the 5-byte window at offsets 10–14: it increments by exactly one the
leftmost byte of the window that is not 0xff and changes no other byte of
the blob; when all five window bytes are 0xff the blob is left completely
unchanged. -/
theorem C4_timestamp_advancer (d : List Nat) (hd : 15 ≤ d.length) :
    ((∀ i, 10 ≤ i → i ≤ 14 → d.getD i 0 = 0xff) ∧ advanceTimestamp d = d) ∨
    (∃ j, 10 ≤ j ∧ j ≤ 14 ∧ d.getD j 0 ≠ 0xff ∧
      (∀ i, 10 ≤ i → i < j → d.getD i 0 = 0xff) ∧
      (advanceTimestamp d).getD j 0 = d.getD j 0 + 1 ∧
      (∀ i, i ≠ j → (advanceTimestamp d).getD i 0 = d.getD i 0) ∧
      (advanceTimestamp d).length = d.length) := by
  rcases advanceTimestamp_cases d with ⟨hall, heq⟩ | ⟨j, hj1, hj2, hne, hff, heq⟩
  · exact .inl ⟨hall, heq⟩
  · refine .inr ⟨j, hj1, hj2, hne, hff, ?_, ?_, advanceTimestamp_length d⟩
    · rw [heq, getD_set_self _ _ (by omega)]
    · intro i hij
      rw [heq, getD_set_ne _ _ (fun h => hij h.symm)]

/-- C4 (witness): the advancer theorem applied at a 15-byte all-zero
blob. -/
theorem C4_timestamp_advancer_witness :
    ((∀ i, 10 ≤ i → i ≤ 14 → (List.replicate 15 0).getD i 0 = 0xff) ∧
      advanceTimestamp (List.replicate 15 0) = List.replicate 15 0) ∨
    (∃ j, 10 ≤ j ∧ j ≤ 14 ∧ (List.replicate 15 0).getD j 0 ≠ 0xff ∧
      (∀ i, 10 ≤ i → i < j → (List.replicate 15 0).getD i 0 = 0xff) ∧
      (advanceTimestamp (List.replicate 15 0)).getD j 0
        = (List.replicate 15 0).getD j 0 + 1 ∧
      (∀ i, i ≠ j → (advanceTimestamp (List.replicate 15 0)).getD i 0
        = (List.replicate 15 0).getD i 0) ∧
      (advanceTimestamp (List.replicate 15 0)).length = (List.replicate 15 0).length) :=
  C4_timestamp_advancer (List.replicate 15 0) (by decide)

end Lumos
namespace Lumos

lemma tsVal_congr (d e : List Nat)
    (h : ∀ i, 10 ≤ i → i ≤ 14 → d.getD i 0 = e.getD i 0) :
    tsVal d = tsVal e := by
  simp only [tsVal]
  rw [h 10 (by omega) (by omega), h 11 (by omega) (by omega),
    h 12 (by omega) (by omega), h 13 (by omega) (by omega), h 14 (by omega) (by omega)]

/-- C5: for every valid enabled StateBlob `b` (length 43, byte 18 = 0x15)
whose timestamp window at offsets 10–14 is not entirely 0xff, the double
toggle succeeds, restores the flag byte at offset 18, and strictly
increases the 5-byte window counter (read as the little-endian number the
advancer maintains). -/
theorem C5_double_toggle_monotone (b : List Nat)
    (hlen : b.length = 43) (hflag : b.getD 18 0 = 0x15)
    (hsat : ¬ ∀ i, 10 ≤ i → i ≤ 14 → b.getD i 0 = 0xff) :
    ∃ r1 r2, toggle b = .ok r1 ∧ toggle r1 = .ok r2 ∧
      r2.getD 18 0 = b.getD 18 0 ∧ tsVal b < tsVal r2 := by
  obtain ⟨nd1, ht1, hlen1, hpre1, h18a, h22a, htl1⟩ :=
    toggle_disabled_spec b hflag (by omega)
  have hwin1 : ∀ i, 10 ≤ i → i ≤ 14 → nd1.getD i 0 = b.getD i 0 := fun i h1 h2 =>
    hpre1 i (by omega) (by omega)
  have hr1len : (advanceTimestamp nd1).length = 41 := by
    rw [advanceTimestamp_length, hlen1]
  have hr1flag : (advanceTimestamp nd1).getD 18 0 = 0x13 := by
    rw [advanceTimestamp_getD_outside nd1 18 (by omega), h18a]
  obtain ⟨nd2, ht2, hlen2, hpre2, h18b, h22b, h23b, h24b, htl2⟩ :=
    toggle_enabled_spec (advanceTimestamp nd1) (by rw [hr1flag]; decide) (by omega)
  refine ⟨advanceTimestamp nd1, advanceTimestamp nd2, ht1, ht2, ?_, ?_⟩
  · rw [advanceTimestamp_getD_outside nd2 18 (by omega), h18b, hflag]
  · have hnd1sat : ¬ ∀ i, 10 ≤ i → i ≤ 14 → nd1.getD i 0 = 0xff := by
      intro hc
      exact hsat (fun i h1 h2 => (hwin1 i h1 h2).symm.trans (hc i h1 h2))
    have l1 : tsVal b < tsVal (advanceTimestamp nd1) := by
      rw [← tsVal_congr nd1 b hwin1]
      exact tsVal_advance_gt nd1 (by omega) hnd1sat
    have hwin2 : ∀ i, 10 ≤ i → i ≤ 14 → nd2.getD i 0 = (advanceTimestamp nd1).getD i 0 :=
      fun i h1 h2 => hpre2 i (by omega) (by omega)
    have l2 : tsVal (advanceTimestamp nd1) ≤ tsVal (advanceTimestamp nd2) := by
      rw [← tsVal_congr nd2 (advanceTimestamp nd1) hwin2]
      exact tsVal_advance_ge nd2 (by omega)
    omega

/-- C5 (witness): the double-toggle theorem applied to the all-zero enabled
blob (window `[0,0,0,0,0]`, not saturated). -/
theorem C5_double_toggle_monotone_witness :
    ∃ r1 r2, toggle ((List.replicate 43 0).set 18 0x15) = .ok r1 ∧
      toggle r1 = .ok r2 ∧
      r2.getD 18 0 = ((List.replicate 43 0).set 18 0x15).getD 18 0 ∧
      tsVal ((List.replicate 43 0).set 18 0x15) < tsVal r2 :=
  C5_double_toggle_monotone ((List.replicate 43 0).set 18 0x15) (by decide) (by decide)
    (fun h => absurd (h 10 (by decide) (by decide)) (by decide))

/-- C6: for every settings blob passing the length check and every
percentage, `SetStrength` succeeds and changes only the bytes at offsets
0x23 and 0x24 and at most one byte (some `j` in the window 10–14): every
other byte, including all trailing content, is written back unchanged, and
the length is preserved. -/
theorem C6_setStrength_frame (data : List Nat) (pct : ℚ) (hlen : 0x25 ≤ data.length) :
    ∃ r j, setStrength pct data = .ok r ∧ r.length = data.length ∧
      10 ≤ j ∧ j ≤ 14 ∧
      (∀ i, i ≠ 0x23 → i ≠ 0x24 → i ≠ j → r.getD i 0 = data.getD i 0) := by
  obtain ⟨lo, hi, heq⟩ : ∃ lo hi,
      setStrength pct data = .ok (advanceTimestamp ((data.set 0x23 lo).set 0x24 hi)) :=
    ⟨_, _, by rw [setStrength]; dsimp only; rw [if_neg (by omega)]⟩
  have hd2 : ∀ i, i ≠ 0x23 → i ≠ 0x24 →
      ((data.set 0x23 lo).set 0x24 hi).getD i 0 = data.getD i 0 := by
    intro i h1 h2
    rw [getD_set_ne _ _ (fun h => h2 h.symm), getD_set_ne _ _ (fun h => h1 h.symm)]
  have hd2len : ((data.set 0x23 lo).set 0x24 hi).length = data.length := by
    rw [List.length_set, List.length_set]
  rcases advanceTimestamp_cases ((data.set 0x23 lo).set 0x24 hi) with
    ⟨_, hEq⟩ | ⟨j, hj1, hj2, _, _, hEq⟩
  · refine ⟨_, 10, heq, ?_, by omega, by omega, ?_⟩
    · rw [advanceTimestamp_length, hd2len]
    · intro i h1 h2 _
      rw [hEq]
      exact hd2 i h1 h2
  · refine ⟨_, j, heq, ?_, hj1, hj2, ?_⟩
    · rw [advanceTimestamp_length, hd2len]
    · intro i h1 h2 hij
      rw [hEq, getD_set_ne _ _ (fun h => hij h.symm)]
      exact hd2 i h1 h2

/-- C6 (witness): the frame theorem applied at a 37-byte all-zero settings
blob and percentage 50. -/
theorem C6_setStrength_frame_witness :
    ∃ r j, setStrength 50 (List.replicate 37 0) = .ok r ∧
      r.length = (List.replicate 37 0).length ∧ 10 ≤ j ∧ j ≤ 14 ∧
      (∀ i, i ≠ 0x23 → i ≠ 0x24 → i ≠ j →
        r.getD i 0 = (List.replicate 37 0).getD i 0) :=
  C6_setStrength_frame (List.replicate 37 0) 50 (by decide)

/-- C7: the kelvin/percentage round trip: for every `p` in [0,100],
`kelvinToPercentage (percentageToKelvin p)` differs from `p` by at most 1
(in the exact-arithmetic model the two linear maps compose to the
identity, so the difference is 0). -/
theorem C7_round_trip (p : ℚ) (_h0 : 0 ≤ p) (_h1 : p ≤ 100) :
    |kelvinToPercentage (percentageToKelvin p) - p| ≤ 1 := by
  have h : kelvinToPercentage (percentageToKelvin p) = p := by
    simp only [kelvinToPercentage, percentageToKelvin, MIN_KELVIN, MAX_KELVIN]
    ring
  rw [h, sub_self, abs_zero]
  norm_num

/-- C7 (witness): the round-trip theorem applied at `p = 50`. -/
theorem C7_round_trip_witness :
    |kelvinToPercentage (percentageToKelvin 50) - 50| ≤ 1 :=
  C7_round_trip 50 (by norm_num) (by norm_num)

end Lumos
namespace Lumos

/-- C8 (counterexample): the claim asserts `GetStrength` always returns a
value in [0,100] once the length check passes; with temperature bytes
`0x23 = 0`, `0x24 = 0xff` the decoded kelvin is 16256 and the returned
percentage is negative. -/
theorem C8_strength_range_counterexample :
    (((List.replicate 37 0).set 0x24 0xff).length = 37) ∧
    getStrength ((List.replicate 37 0).set 0x24 0xff)
      = .ok (kelvinToPercentage (bytesToKelvin 0 0xff)) ∧
    kelvinToPercentage (bytesToKelvin 0 0xff) < 0 := by
  refine ⟨by decide, ?_, ?_⟩
  · have e1 : ((List.replicate 37 0).set 0x24 0xff).getD 0x23 0 = 0 := by decide
    have e2 : ((List.replicate 37 0).set 0x24 0xff).getD 0x24 0 = 0xff := by decide
    rw [getStrength, if_neg (by decide), e1, e2]
  · norm_num [kelvinToPercentage, bytesToKelvin, MIN_KELVIN, MAX_KELVIN]

/-- C8 (amended): for every settings blob passing the length check whose
decoded kelvin value lies in the domain range [1200, 6500], `GetStrength`
returns a value in [0, 100]; the code performs no clamping, so temperature
bytes decoding outside that kelvin range produce values outside [0,100]. -/
theorem C8_strength_range_amended (data : List Nat) (hlen : 0x25 ≤ data.length)
    (h1 : 1200 ≤ bytesToKelvin (data.getD 0x23 0) (data.getD 0x24 0))
    (h2 : bytesToKelvin (data.getD 0x23 0) (data.getD 0x24 0) ≤ 6500) :
    ∃ v, getStrength data = .ok v ∧ 0 ≤ v ∧ v ≤ 100 := by
  have heq : getStrength data =
      .ok (kelvinToPercentage (bytesToKelvin (data.getD 0x23 0) (data.getD 0x24 0))) := by
    rw [getStrength, if_neg (by omega)]
  have hval : kelvinToPercentage (bytesToKelvin (data.getD 0x23 0) (data.getD 0x24 0))
      = 100 - (bytesToKelvin (data.getD 0x23 0) (data.getD 0x24 0) - 1200) / 53 := by
    simp only [kelvinToPercentage, MIN_KELVIN, MAX_KELVIN]
    ring
  refine ⟨_, heq, ?_, ?_⟩
  · rw [hval]
    have : (bytesToKelvin (data.getD 0x23 0) (data.getD 0x24 0) - 1200) / 53 ≤ 100 := by
      rw [div_le_iff₀ (by norm_num : (0:ℚ) < 53)]
      linarith
    linarith
  · rw [hval]
    have : 0 ≤ (bytesToKelvin (data.getD 0x23 0) (data.getD 0x24 0) - 1200) / 53 :=
      div_nonneg (by linarith) (by norm_num)
    linarith

/-- C8 (witness): the amended theorem applied at a 37-byte blob whose
temperature bytes `0x23 = 128`, `0x24 = 40` decode to kelvin 2560. -/
theorem C8_strength_range_amended_witness :
    ∃ v, getStrength (((List.replicate 37 0).set 0x23 128).set 0x24 40) = .ok v ∧
      0 ≤ v ∧ v ≤ 100 := by
  have e1 : (((List.replicate 37 0).set 0x23 128).set 0x24 40).getD 0x23 0 = 128 := by decide
  have e2 : (((List.replicate 37 0).set 0x23 128).set 0x24 40).getD 0x24 0 = 40 := by decide
  exact C8_strength_range_amended (((List.replicate 37 0).set 0x23 128).set 0x24 40)
    (by decide) (by rw [e1, e2]; norm_num [bytesToKelvin])
    (by rw [e1, e2]; norm_num [bytesToKelvin])

/-- C9 (counterexample): the claim asserts every settings blob shorter than
0x25+1 = 38 bytes is rejected; the code's check is `len(data) < 0x25`, so a
37-byte blob passes and both operations succeed. -/
theorem C9_settings_length_counterexample :
    (List.replicate 37 0).length = 37 ∧ 37 < 0x25 + 1 ∧
    (getStrength (List.replicate 37 0)).toOption.map (fun _ => true) = some true ∧
    (setStrength 0 (List.replicate 37 0)).toOption.map (fun _ => true) = some true := by
  decide

/-- C9 (amended): the settings length check fails exactly when the blob is
shorter than 0x25 = 37 bytes: for every shorter sequence `GetStrength` and
`SetStrength` fail with the invalid-length error, and for every sequence of
length at least 37 the length check passes and both succeed. -/
theorem C9_settings_length_amended (data : List Nat) (pct : ℚ) :
    (data.length < 0x25 →
      getStrength data = .error "invalid settings data length" ∧
      setStrength pct data = .error "invalid settings data length") ∧
    (0x25 ≤ data.length →
      (∃ v, getStrength data = .ok v) ∧ (∃ r, setStrength pct data = .ok r)) := by
  constructor
  · intro h
    constructor
    · rw [getStrength, if_pos h]
    · rw [setStrength]
      dsimp only
      rw [if_pos h]
  · intro h
    constructor
    · exact ⟨_, by rw [getStrength, if_neg (by omega)]⟩
    · exact ⟨_, by rw [setStrength]; dsimp only; rw [if_neg (by omega)]⟩

/-- C9 (witness): the amended theorem's success half at the 37-byte
all-zero blob and its failure half at a 36-byte blob. -/
theorem C9_settings_length_amended_witness :
    ((∃ v, getStrength (List.replicate 37 0) = .ok v) ∧
      (∃ r, setStrength 0 (List.replicate 37 0) = .ok r)) ∧
    getStrength (List.replicate 36 0) = .error "invalid settings data length" :=
  ⟨(C9_settings_length_amended (List.replicate 37 0) 0).2 (by decide),
    ((C9_settings_length_amended (List.replicate 36 0) 0).1 (by decide)).1⟩

/-- C10: `Toggle`'s byte and slice accesses are all in bounds — it succeeds
— for every state blob satisfying the flag/length agreement (byte 18 = 0x13
with length 41, or byte 18 = 0x15 with length 43); and the precondition is
necessary: the 42-byte blob with byte 18 = 0x15 is accepted as enabled by
`Enabled`, yet the disable branch's slice `data[25:43]` reaches past the end
of the blob and `Toggle` fails with the slice-bounds error. -/
theorem C10_toggle_bounds (b : List Nat)
    (hvalid : (b.length = 41 ∧ b.getD 18 0 = 0x13) ∨
      (b.length = 43 ∧ b.getD 18 0 = 0x15)) :
    (∃ r, toggle b = .ok r) ∧
    (enabled ((List.replicate 42 0).set 18 0x15) = .ok true ∧
      ((List.replicate 42 0).set 18 0x15).length < 43 ∧
      toggle ((List.replicate 42 0).set 18 0x15) = .error "slice bounds out of range") := by
  constructor
  · rcases hvalid with ⟨hlen, hflag⟩ | ⟨hlen, hflag⟩
    · obtain ⟨nd, ht, -⟩ := toggle_enabled_spec b (by rw [hflag]; decide) (by omega)
      exact ⟨_, ht⟩
    · obtain ⟨nd, ht, -⟩ := toggle_disabled_spec b hflag (by omega)
      exact ⟨_, ht⟩
  · refine ⟨by decide, by decide, by decide⟩

/-- C10 (witness): the bounds theorem applied at the all-zero valid disabled
blob. -/
theorem C10_toggle_bounds_witness :
    (∃ r, toggle ((List.replicate 41 0).set 18 0x13) = .ok r) ∧
    (enabled ((List.replicate 42 0).set 18 0x15) = .ok true ∧
      ((List.replicate 42 0).set 18 0x15).length < 43 ∧
      toggle ((List.replicate 42 0).set 18 0x15) = .error "slice bounds out of range") :=
  C10_toggle_bounds ((List.replicate 41 0).set 18 0x13) (Or.inl ⟨by decide, by decide⟩)

end Lumos
